import Mathlib

/-!
Shallow embedding of `brpc::SimpleDataPool` (src/brpc/simple_data_pool.h).

The pool is modelled single-threaded: every operation is a pure function on
an explicit state.  Machine `unsigned` (32-bit) arithmetic is modelled
with `Nat`, with the wrap made explicit where it can occur: the growth
expression `_capacity * 3 / 2` multiplies first in `unsigned`, so it is
modelled as `capacity * 3 % 2 ^ 32 / 2` (the other counters stay far below
`2 ^ 32` on every path considered and their wrap is elided).  The opaque
`void*` handles are modelled as `Nat`; the C++ `NULL` pointer is `none` of
an `Option Handle`.  The buffer `_pool` is modelled by the list of its live
entries `_pool[0, _size)` (slots at indices `>= _size` are stale in the
source and never read while `_pool.length = _size`, which the operations
preserve).

External effects are made explicit:
- `malloc` success/failure is an oracle argument `allocOk : Bool`;
- `DataFactory::CreateData` results are an oracle (`Option Handle` for the
  single call in `Borrow`, `Nat → Option Handle` for the calls of
  `Reserve`'s fill loop, indexed by call number within the operation);
- each call into the factory is recorded as an `Event`, tagged with the
  identity of the factory called (`DataFactory` identities are `Nat`);
- dereferencing a NULL `_factory` is undefined behaviour: the operation
  returns `none`.
-/

/-- Opaque non-NULL `void*` handle. -/
abbrev Handle := Nat

/-- Identity of a `DataFactory` (the pool only stores a pointer to it;
construction/destruction behaviour enters through the oracles). -/
abbrev FactoryId := Nat

/-- A call into the `DataFactory`, as observed from outside the pool. -/
inductive Event where
  /-- `CreateData` on factory `fac` returned the non-NULL handle `h`. -/
  | createOk (fac : FactoryId) (h : Handle)
  /-- `CreateData` on factory `fac` returned NULL. -/
  | createFail (fac : FactoryId)
  /-- `DestroyData(h)` was called on factory `fac`. -/
  | destroy (fac : FactoryId) (h : Handle)
deriving Repr, DecidableEq

/-- State of `brpc::SimpleDataPool` (fields `_capacity`, `_size`,
`_ncreated`, `_pool`, `_factory`; the mutex is irrelevant in the
single-threaded model). `pool` holds the live entries `_pool[0, _size)`. -/
structure SimpleDataPool where
  capacity : Nat
  size : Nat
  ncreated : Nat
  pool : List Handle
  factory : Option FactoryId
deriving Repr, DecidableEq

/-- `SimpleDataPool::SimpleDataPool(factory)`: zero capacity, size and
creation count, NULL buffer. -/
def construct (factory : Option FactoryId) : SimpleDataPool :=
  ⟨0, 0, 0, [], factory⟩

/-- Result of `SimpleDataPool::stat()`. -/
structure Stat where
  nfree : Nat
  ncreated : Nat
deriving Repr, DecidableEq

/-- `SimpleDataPool::stat()`. -/
def stat (s : SimpleDataPool) : Stat :=
  ⟨s.size, s.ncreated⟩

/-- The fill loop of `SimpleDataPool::Reserve`
(`for (; i < n; ++i) { data = _factory->CreateData(); ... }`), with `cnt`
remaining iterations and `k` the number of `CreateData` calls already made
in this operation.  A NULL result breaks out of the loop; a non-NULL
result increments `_ncreated` and is appended at `_pool[_size++]`. -/
def fillLoop (fac : FactoryId) (create : Nat → Option Handle) :
    Nat → Nat → SimpleDataPool → SimpleDataPool × List Event
  | _, 0, s => (s, [])
  | k, cnt + 1, s =>
    match create k with
    | none => (s, [Event.createFail fac])
    | some data =>
      let s' : SimpleDataPool :=
        { s with ncreated := s.ncreated + 1,
                 pool := s.pool ++ [data],
                 size := s.size + 1 }
      let r := fillLoop fac create (k + 1) cnt s'
      (r.1, Event.createOk fac data :: r.2)

/-- `SimpleDataPool::Reserve(n)`.  Returns `none` on the undefined
behaviour of calling `CreateData` through a NULL `_factory` (which happens
whenever the fill loop is reached with `_factory == NULL`, since the loop
then runs at least one iteration). -/
def Reserve (s : SimpleDataPool) (n : Nat) (allocOk : Bool)
    (create : Nat → Option Handle) :
    Option (SimpleDataPool × List Event) :=
  if n ≤ s.capacity then
    some (s, [])
  else if allocOk = false then
    some (s, [])
  else
    match s.factory with
    | none => none
    | some fac =>
      let i := s.capacity
      let s' : SimpleDataPool :=
        { s with capacity := max (s.capacity * 3 % 2 ^ 32 / 2) n }
      some (fillLoop fac create i (n - i) s')

/-- `SimpleDataPool::Borrow()`.  `createRes` is the oracle for the single
`CreateData` call of the empty-bank path.  Returns `none` on the undefined
behaviour of calling `CreateData` through a NULL `_factory`. -/
def Borrow (s : SimpleDataPool) (createRes : Option Handle) :
    Option (Option Handle × SimpleDataPool × List Event) :=
  if s.size ≠ 0 then
    some (s.pool[s.size - 1]?,
          { s with size := s.size - 1, pool := s.pool.take (s.size - 1) },
          [])
  else
    match s.factory with
    | none => none
    | some fac =>
      match createRes with
      | none => some (none, s, [Event.createFail fac])
      | some data =>
        some (some data, { s with ncreated := s.ncreated + 1 },
              [Event.createOk fac data])

/-- `SimpleDataPool::Return(data)`.  Returns `none` on the undefined
behaviour of calling `DestroyData` through a NULL `_factory` (the
allocation-failure fallback). -/
def Return (s : SimpleDataPool) (data : Option Handle) (allocOk : Bool) :
    Option (SimpleDataPool × List Event) :=
  match data with
  | none => some (s, [])
  | some h =>
    if s.capacity = s.size then
      if allocOk = false then
        match s.factory with
        | none => none
        | some fac => some (s, [Event.destroy fac h])
      else
        let new_cap :=
          if s.capacity = 0 then 128 else s.capacity * 3 % 2 ^ 32 / 2
        let s' : SimpleDataPool := { s with capacity := new_cap }
        some ({ s' with pool := s'.pool ++ [h], size := s'.size + 1 }, [])
    else
      some ({ s with pool := s.pool ++ [h], size := s.size + 1 }, [])

/-- `SimpleDataPool::Reset(factory)`: swap out the whole state for a fresh
empty one carrying the new factory, then (outside the lock) call the saved
factory's `DestroyData` on each saved banked handle in index order — only
when the saved factory is non-NULL. -/
def Reset (s : SimpleDataPool) (factory : Option FactoryId) :
    SimpleDataPool × List Event :=
  let saved_size := s.size
  let saved_pool := s.pool
  let saved_factory := s.factory
  let s' : SimpleDataPool := ⟨0, 0, 0, [], factory⟩
  match saved_factory with
  | some fac => (s', (saved_pool.take saved_size).map (Event.destroy fac))
  | none => (s', [])

/-- One pool operation together with its external oracles. -/
inductive Op where
  | reserve (n : Nat) (allocOk : Bool) (create : Nat → Option Handle)
  | borrow (createRes : Option Handle)
  | ret (data : Option Handle) (allocOk : Bool)

/-- Execute one operation (dropping `Borrow`'s return value). -/
def step (s : SimpleDataPool) : Op → Option (SimpleDataPool × List Event)
  | .reserve n allocOk create => Reserve s n allocOk create
  | .borrow createRes => (Borrow s createRes).map (fun r => (r.2.1, r.2.2))
  | .ret data allocOk => Return s data allocOk

/-- Execute a sequence of operations, accumulating the factory calls. -/
def run (s : SimpleDataPool) : List Op → Option (SimpleDataPool × List Event)
  | [] => some (s, [])
  | op :: ops =>
    match step s op with
    | none => none
    | some (s', evs) =>
      match run s' ops with
      | none => none
      | some (s'', evs') => some (s'', evs ++ evs')

/-- Number of `CreateData` calls in a trace that produced a handle. -/
def countOk (evs : List Event) : Nat :=
  evs.countP (fun e => match e with | .createOk _ _ => true | _ => false)

theorem fillLoop_capacity_factory (fac : FactoryId) (create : Nat → Option Handle) :
    ∀ (cnt k : Nat) (s : SimpleDataPool),
      (fillLoop fac create k cnt s).1.capacity = s.capacity ∧
      (fillLoop fac create k cnt s).1.factory = s.factory := by
  intro cnt
  induction cnt with
  | zero => intro k s; exact ⟨rfl, rfl⟩
  | succ m ih =>
    intro k s
    simp only [fillLoop]
    cases create k with
    | none => exact ⟨rfl, rfl⟩
    | some data => exact ih (k + 1) _

theorem fillLoop_ncreated (fac : FactoryId) (create : Nat → Option Handle) :
    ∀ (cnt k : Nat) (s : SimpleDataPool),
      (fillLoop fac create k cnt s).1.ncreated =
        s.ncreated + countOk (fillLoop fac create k cnt s).2 := by
  intro cnt
  induction cnt with
  | zero => intro k s; simp [fillLoop, countOk]
  | succ m ih =>
    intro k s
    simp only [fillLoop]
    cases create k with
    | none => simp [countOk]
    | some data =>
      simp only [countOk, List.countP_cons] at *
      rw [ih (k + 1)]
      simp
      omega

theorem fillLoop_success (fac : FactoryId) (create : Nat → Option Handle)
    (g : Nat → Handle) (hg : ∀ j, create j = some (g j)) :
    ∀ (cnt k : Nat) (s : SimpleDataPool),
      fillLoop fac create k cnt s =
        ({ s with ncreated := s.ncreated + cnt,
                  size := s.size + cnt,
                  pool := s.pool ++ (List.range' k cnt).map g },
         (List.range' k cnt).map (fun j => Event.createOk fac (g j))) := by
  intro cnt
  induction cnt with
  | zero => intro k s; simp [fillLoop]
  | succ m ih =>
    intro k s
    simp only [fillLoop, hg k]
    rw [ih (k + 1)]
    rw [List.range'_succ k m 1]
    simp only [List.map_cons, List.append_assoc, List.singleton_append]
    have h1 : s.size + 1 + m = s.size + (m + 1) := by omega
    have h2 : s.ncreated + 1 + m = s.ncreated + (m + 1) := by omega
    rw [h1, h2]

theorem countOk_append (l m : List Event) :
    countOk (l ++ m) = countOk l + countOk m := by
  simp [countOk, List.countP_append]

theorem step_ncreated (s : SimpleDataPool) (op : Op) (s' : SimpleDataPool)
    (evs : List Event) (h : step s op = some (s', evs)) :
    s'.ncreated = s.ncreated + countOk evs := by
  cases op with
  | reserve n allocOk create =>
    simp only [step, Reserve] at h
    split at h
    · simp only [Option.some.injEq, Prod.mk.injEq] at h
      obtain ⟨h1, h2⟩ := h
      subst h1; subst h2
      simp [countOk]
    · split at h
      · simp only [Option.some.injEq, Prod.mk.injEq] at h
        obtain ⟨h1, h2⟩ := h
        subst h1; subst h2
        simp [countOk]
      · split at h
        · exact absurd h (by simp)
        · rename_i fac hfac
          simp only [Option.some.injEq] at h
          have hfl := fillLoop_ncreated fac create (n - s.capacity) s.capacity
            { s with capacity := max (s.capacity * 3 % 2 ^ 32 / 2) n }
          rw [h] at hfl
          simpa using hfl
  | borrow c =>
    simp only [step] at h
    rw [Borrow] at h
    split at h
    · simp only [Option.map_some', Option.some.injEq, Prod.mk.injEq] at h
      obtain ⟨h1, h2⟩ := h
      subst h1; subst h2
      simp [countOk]
    · split at h
      · exact absurd h (by simp)
      · split at h
        · simp only [Option.map_some', Option.some.injEq, Prod.mk.injEq] at h
          obtain ⟨h1, h2⟩ := h
          subst h1; subst h2
          simp [countOk]
        · simp only [Option.map_some', Option.some.injEq, Prod.mk.injEq] at h
          obtain ⟨h1, h2⟩ := h
          subst h1; subst h2
          simp [countOk]
  | ret d allocOk =>
    simp only [step, Return] at h
    split at h
    · simp only [Option.some.injEq, Prod.mk.injEq] at h
      obtain ⟨h1, h2⟩ := h
      subst h1; subst h2
      simp [countOk]
    · split at h
      · split at h
        · split at h
          · exact absurd h (by simp)
          · simp only [Option.some.injEq, Prod.mk.injEq] at h
            obtain ⟨h1, h2⟩ := h
            subst h1; subst h2
            simp [countOk]
        · simp only [Option.some.injEq, Prod.mk.injEq] at h
          obtain ⟨h1, h2⟩ := h
          subst h1; subst h2
          simp [countOk]
      · simp only [Option.some.injEq, Prod.mk.injEq] at h
        obtain ⟨h1, h2⟩ := h
        subst h1; subst h2
        simp [countOk]

theorem run_ncreated :
    ∀ (ops : List Op) (s s' : SimpleDataPool) (evs : List Event),
      run s ops = some (s', evs) → s'.ncreated = s.ncreated + countOk evs := by
  intro ops
  induction ops with
  | nil =>
    intro s s' evs h
    simp only [run, Option.some.injEq, Prod.mk.injEq] at h
    obtain ⟨h1, h2⟩ := h
    subst h1; subst h2
    simp [countOk]
  | cons op ops ih =>
    intro s s' evs h
    simp only [run] at h
    cases hstep : step s op with
    | none => rw [hstep] at h; exact absurd h (by simp)
    | some p =>
      rw [hstep] at h
      obtain ⟨s1, evs1⟩ := p
      dsimp only at h
      cases hrun : run s1 ops with
      | none => rw [hrun] at h; exact absurd h (by simp)
      | some q =>
        rw [hrun] at h
        obtain ⟨s2, evs2⟩ := q
        simp only [Option.some.injEq, Prod.mk.injEq] at h
        obtain ⟨h1, h2⟩ := h
        subst h1; subst h2
        have e1 := step_ncreated s op s1 evs1 hstep
        have e2 := ih s1 s2 evs2 hrun
        rw [countOk_append]
        omega

/-- C7: across every sequence of Reserve/Borrow/Return operations since
construction (or since the last Reset, whose post-state is `construct f`),
`stat().ncreated` equals the number of `CreateData` calls that actually
produced a non-NULL handle, and `ncreated` never decreases along such a
sequence. -/
theorem c7_creation_accounting :
    (∀ (f : Option FactoryId) (ops : List Op) (s' : SimpleDataPool)
        (evs : List Event),
        run (construct f) ops = some (s', evs) →
        (stat s').ncreated = countOk evs)
    ∧ (∀ (s s' : SimpleDataPool) (ops : List Op) (evs : List Event),
        run s ops = some (s', evs) →
        (stat s).ncreated ≤ (stat s').ncreated) := by
  constructor
  · intro f ops s' evs h
    have hr := run_ncreated ops (construct f) s' evs h
    simpa [stat, construct] using hr
  · intro s s' ops evs h
    have hr := run_ncreated ops s s' evs h
    simp only [stat]
    omega

/-- Witness for C7 at a concrete one-operation trace. -/
theorem c7_creation_accounting_witness :
    (stat (⟨0, 0, 1, [], some 0⟩ : SimpleDataPool)).ncreated =
      countOk [Event.createOk 0 5] ∧
    (stat (construct (some 0))).ncreated ≤
      (stat (⟨0, 0, 1, [], some 0⟩ : SimpleDataPool)).ncreated :=
  ⟨c7_creation_accounting.1 (some 0) [Op.borrow (some 5)] _ _ rfl,
   c7_creation_accounting.2 _ _ [Op.borrow (some 5)] _ rfl⟩

/-- C1 (bug demonstration): from a freshly constructed pool, the reachable
sequence Reserve(1); Borrow; Borrow; Return; Return (everything
succeeding) ends with `size = 2 > capacity = 1`: the second Return grows a
full bank of capacity 1 to `1 * 3 / 2 = 1` and then appends past it, so
the invariant `size <= capacity` is violated (in the C++ source this is an
out-of-bounds write at `_pool[1]` of a 1-slot buffer). -/
theorem c1_invariant_violation :
    run (construct (some 0))
      [Op.reserve 1 true (fun _ => some 1), Op.borrow none,
       Op.borrow (some 2), Op.ret (some 2) true, Op.ret (some 1) true] =
      some (⟨1, 2, 2, [2, 1], some 0⟩,
        [Event.createOk 0 1, Event.createOk 0 2]) ∧
    ¬ ((2 : Nat) ≤ 1) :=
  ⟨rfl, by decide⟩

/-- C2 (counterexample): on a pool with `capacity = 10` and `size = 0`
(all ten handles borrowed out), `Reserve 5` returns at the
`_capacity >= n` fast path without constructing anything, although the
allocator and `CreateData` never fail during the call; afterwards
`size = 0 < 5`. -/
theorem c2_counterexample :
    Reserve ⟨10, 0, 0, [], some 0⟩ 5 true (fun k => some (k + 1)) =
      some (⟨10, 0, 0, [], some 0⟩, []) ∧
    ¬ ((5 : Nat) ≤ (0 : Nat)) :=
  ⟨rfl, by decide⟩

/-- C2 (amended): `Reserve n` with `capacity >= n` is a no-op that
constructs nothing; with `capacity < n` (allocation succeeding, factory
non-NULL, every `CreateData` call succeeding) it creates exactly
`n - capacity` handles — the fill loop runs `i` from the old capacity up
to `n`, not while `size < n` — appending each to the bank and incrementing
`ncreated` once per construction, and sets `capacity` to
`max (capacity * 3 % 2 ^ 32 / 2) n`, so the final size is
`size + (n - capacity)`; hence at least `n` handles are banked afterwards
when the bank was full (`size = capacity`) beforehand. -/
theorem c2_reserve_amended (s : SimpleDataPool) (n : Nat) (fac : FactoryId)
    (create : Nat → Option Handle) (g : Nat → Handle) :
    (n ≤ s.capacity → Reserve s n true create = some (s, [])) ∧
    (s.factory = some fac → (∀ j, create j = some (g j)) →
      s.capacity < n →
      Reserve s n true create =
        some (⟨max (s.capacity * 3 % 2 ^ 32 / 2) n,
               s.size + (n - s.capacity),
               s.ncreated + (n - s.capacity),
               s.pool ++ (List.range' s.capacity (n - s.capacity)).map g,
               some fac⟩,
          (List.range' s.capacity (n - s.capacity)).map
            (fun j => Event.createOk fac (g j))) ∧
      (s.size = s.capacity → n ≤ s.size + (n - s.capacity))) := by
  constructor
  · intro hle
    rw [Reserve, if_pos hle]
  · intro hf hg hlt
    refine ⟨?_, fun hfull => by omega⟩
    rw [Reserve]
    rw [if_neg (by omega)]
    rw [if_neg (by simp)]
    rw [hf]
    dsimp only
    rw [fillLoop_success fac create g hg]

/-- Witness for C2 (amended) at concrete inputs: the no-op half on a
partially drained pool, the growth half on a drained pool with
`size < capacity < n` — the distinguishing case, where only
`n - capacity = 2` handles are created and the final size `5` stays below
`n = 12` — and the full-bank corollary on a full pool. -/
theorem c2_reserve_amended_witness :
    (Reserve (⟨10, 4, 4, [1, 2, 3, 4], some 0⟩ : SimpleDataPool) 7 true
        (fun k => some (k + 100)) =
      some (⟨10, 4, 4, [1, 2, 3, 4], some 0⟩, [])) ∧
    (Reserve (⟨10, 3, 3, [1, 2, 3], some 0⟩ : SimpleDataPool) 12 true
        (fun k => some (k + 100)) =
      some (⟨max (10 * 3 % 2 ^ 32 / 2) 12, 3 + (12 - 10), 3 + (12 - 10),
             [1, 2, 3] ++ (List.range' 10 (12 - 10)).map (fun k => k + 100),
             some 0⟩,
        (List.range' 10 (12 - 10)).map
          (fun j => Event.createOk 0 (j + 100))) ∧
      ((3 : Nat) = 10 → 12 ≤ 3 + (12 - 10))) ∧
    (4 : Nat) ≤ 2 + (4 - 2) :=
  ⟨(c2_reserve_amended ⟨10, 4, 4, [1, 2, 3, 4], some 0⟩ 7 0
      (fun k => some (k + 100)) (fun k => k + 100)).1 (by decide),
   (c2_reserve_amended ⟨10, 3, 3, [1, 2, 3], some 0⟩ 12 0
      (fun k => some (k + 100)) (fun k => k + 100)).2 rfl (fun _ => rfl)
      (by decide),
   ((c2_reserve_amended ⟨2, 2, 2, [8, 9], some 0⟩ 4 0
      (fun k => some (k + 100)) (fun k => k + 100)).2 rfl (fun _ => rfl)
      (by decide)).2 rfl⟩

/-- C8: the concrete scenario — from an empty pool over an always-
succeeding factory, Reserve(5) gives ncreated = 5 and nfree = 5; three
Borrows give nfree = 2 with ncreated still 5; returning the last borrowed
handle gives nfree = 3; a further Borrow yields exactly the just-returned
handle and leaves nfree = 2. -/
theorem c8_concrete_scenario :
    Reserve (construct (some 0)) 5 true (fun k => some (k + 1)) =
      some (⟨5, 5, 5, [1, 2, 3, 4, 5], some 0⟩,
        [Event.createOk 0 1, Event.createOk 0 2, Event.createOk 0 3,
         Event.createOk 0 4, Event.createOk 0 5]) ∧
    stat ⟨5, 5, 5, [1, 2, 3, 4, 5], some 0⟩ = ⟨5, 5⟩ ∧
    Borrow ⟨5, 5, 5, [1, 2, 3, 4, 5], some 0⟩ none =
      some (some 5, ⟨5, 4, 5, [1, 2, 3, 4], some 0⟩, []) ∧
    Borrow ⟨5, 4, 5, [1, 2, 3, 4], some 0⟩ none =
      some (some 4, ⟨5, 3, 5, [1, 2, 3], some 0⟩, []) ∧
    Borrow ⟨5, 3, 5, [1, 2, 3], some 0⟩ none =
      some (some 3, ⟨5, 2, 5, [1, 2], some 0⟩, []) ∧
    stat ⟨5, 2, 5, [1, 2], some 0⟩ = ⟨2, 5⟩ ∧
    Return ⟨5, 2, 5, [1, 2], some 0⟩ (some 3) true =
      some (⟨5, 3, 5, [1, 2, 3], some 0⟩, []) ∧
    stat ⟨5, 3, 5, [1, 2, 3], some 0⟩ = ⟨3, 5⟩ ∧
    Borrow ⟨5, 3, 5, [1, 2, 3], some 0⟩ none =
      some (some 3, ⟨5, 2, 5, [1, 2], some 0⟩, []) ∧
    stat ⟨5, 2, 5, [1, 2], some 0⟩ = ⟨2, 5⟩ := by
  refine ⟨rfl, rfl, rfl, rfl, rfl, rfl, rfl, rfl, rfl, rfl⟩

/-- C9 (counterexample): the grown capacity of Return is not strictly
greater than the old one for every unsigned capacity value: at capacity 1
the quotient `1 * 3 / 2 = 1` does not grow, and at capacity 1431655766 the
32-bit unsigned product `1431655766 * 3` wraps modulo `2 ^ 32` to `2`,
giving grown capacity `1` (the bank contents are irrelevant to the growth
arithmetic, so the big bank's live list is left empty in the model). -/
theorem c9_counterexample :
    (Return ⟨1, 1, 1, [5], some 0⟩ (some 7) true =
        some (⟨1, 2, 1, [5, 7], some 0⟩, []) ∧
      ¬ ((1 : Nat) < 1)) ∧
    (Return ⟨1431655766, 1431655766, 0, [], some 0⟩ (some 7) true =
        some (⟨1, 1431655767, 0, [7], some 0⟩, []) ∧
      ¬ ((1431655766 : Nat) < 1)) :=
  ⟨⟨rfl, by decide⟩, ⟨rfl, by decide⟩⟩

/-- C9 (amended): the growth arithmetic in 32-bit unsigned arithmetic,
where `capacity * 3` wraps modulo `2 ^ 32` before the division: when
Return grows a full bank the new capacity is 128 if the old capacity is 0
and `capacity * 3 % 2 ^ 32 / 2` otherwise, and it is strictly greater than
the old capacity exactly when capacity = 0 or
`2 ≤ capacity ≤ 1431655765`; strictness fails at capacity 1 (the quotient
is again 1) and at every capacity of `[1431655766, 2 ^ 32)` (the product
wraps).  When Reserve grows (`capacity < n`) the new capacity is
`max (capacity * 3 % 2 ^ 32 / 2) n`. -/
theorem c9_growth_amended (s : SimpleDataPool) (h : Handle) (n : Nat)
    (create : Nat → Option Handle) :
    (∀ (s' : SimpleDataPool) (evs : List Event),
        s.capacity = s.size → Return s (some h) true = some (s', evs) →
        s'.capacity =
          (if s.capacity = 0 then 128 else s.capacity * 3 % 2 ^ 32 / 2) ∧
        (s.capacity < 2 ^ 32 →
          (s.capacity < s'.capacity ↔
            (s.capacity = 0 ∨ (2 ≤ s.capacity ∧ s.capacity ≤ 1431655765)))))
    ∧ (∀ (s' : SimpleDataPool) (evs : List Event),
        s.capacity < n → Reserve s n true create = some (s', evs) →
        s'.capacity = max (s.capacity * 3 % 2 ^ 32 / 2) n) := by
  constructor
  · intro s' evs hfull hret
    rw [Return, if_pos hfull, if_neg (by simp)] at hret
    simp only [Option.some.injEq, Prod.mk.injEq] at hret
    obtain ⟨h1, _⟩ := hret
    subst h1
    refine ⟨rfl, ?_⟩
    intro hu32
    by_cases h0 : s.capacity = 0
    · simp [h0]
    · simp only [if_neg h0]
      by_cases hw : s.capacity * 3 < 2 ^ 32
      · rw [Nat.mod_eq_of_lt hw]
        omega
      · by_cases hw2 : s.capacity * 3 < 2 ^ 33
        · have hm : s.capacity * 3 % 2 ^ 32 = s.capacity * 3 - 2 ^ 32 := by
            omega
          rw [hm]
          omega
        · have hm : s.capacity * 3 % 2 ^ 32 = s.capacity * 3 - 2 ^ 33 := by
            omega
          rw [hm]
          omega
  · intro s' evs hlt hres
    rw [Reserve, if_neg (by omega), if_neg (by simp)] at hres
    cases hfac : s.factory with
    | none => rw [hfac] at hres; exact absurd hres (by simp)
    | some fac =>
      rw [hfac] at hres
      dsimp only at hres
      simp only [Option.some.injEq] at hres
      have hcap := (fillLoop_capacity_factory fac create (n - s.capacity)
        s.capacity
        { s with capacity := max (s.capacity * 3 % 2 ^ 32 / 2) n }).1
      rw [hfac] at hcap
      rw [hres] at hcap
      simpa using hcap

/-- Witness for C9 (amended) at concrete inputs. -/
theorem c9_growth_amended_witness :
    ((⟨3, 3, 0, [1, 2, 7], some 0⟩ : SimpleDataPool).capacity =
        (if (2 : Nat) = 0 then 128 else 2 * 3 % 2 ^ 32 / 2) ∧
      ((2 : Nat) < 3 ↔
        ((2 : Nat) = 0 ∨ (2 ≤ (2 : Nat) ∧ (2 : Nat) ≤ 1431655765)))) ∧
    (⟨6, 4, 4, [1, 2, 3, 4], some 0⟩ : SimpleDataPool).capacity =
      max (4 * 3 % 2 ^ 32 / 2) 5 := by
  constructor
  · have hres := (c9_growth_amended ⟨2, 2, 0, [1, 2], some 0⟩ 7 0
      (fun _ => none)).1 ⟨3, 3, 0, [1, 2, 7], some 0⟩ [] rfl (by rfl)
    exact ⟨hres.1, hres.2 (by decide)⟩
  · exact (c9_growth_amended ⟨4, 4, 4, [1, 2, 3, 4], some 0⟩ 9 5
      (fun _ => none)).2 ⟨6, 4, 4, [1, 2, 3, 4], some 0⟩
      [Event.createFail 0] (by decide) (by rfl)

/-- C3: after `Reset(newFactory)` the state is the freshly constructed one
over the new factory (size, capacity and ncreated are 0, the buffer is
empty, subsequent Borrow calls construct through the new factory), and the
saved banked handles have each been passed, in index order, to the old
factory's DestroyData — exactly once each when the bank held no
duplicates — provided the old factory was non-NULL. -/
theorem c3_reset_drains (s : SimpleDataPool) (f' : Option FactoryId) :
    (Reset s f').1 = construct f' ∧
    (∀ fac, s.factory = some fac →
      (Reset s f').2 = (s.pool.take s.size).map (Event.destroy fac)) ∧
    (s.factory = none → (Reset s f').2 = []) ∧
    (∀ fac h, s.factory = some fac → s.pool.length = s.size →
      s.pool.Nodup → h ∈ s.pool →
      ((Reset s f').2).count (Event.destroy fac h) = 1) ∧
    (∀ nf hdl, f' = some nf →
      Borrow (Reset s f').1 (some hdl) =
        some (some hdl, ⟨0, 0, 1, [], some nf⟩, [Event.createOk nf hdl])) := by
  refine ⟨?_, ?_, ?_, ?_, ?_⟩
  · cases hfac : s.factory <;> simp [Reset, hfac, construct]
  · intro fac hfac
    simp [Reset, hfac]
  · intro hfac
    simp [Reset, hfac]
  · intro fac h hfac hlen hnd hmem
    simp only [Reset, hfac]
    rw [← hlen, List.take_length]
    have hinj : Function.Injective (Event.destroy fac) := by
      intro a b hab
      cases hab
      rfl
    rw [List.count_map_of_injective s.pool (Event.destroy fac) hinj h]
    exact List.count_eq_one_of_mem hnd hmem
  · intro nf hdl hf
    subst hf
    have h1 : (Reset s (some nf)).1 = construct (some nf) := by
      cases hfac : s.factory <;> simp [Reset, hfac, construct]
    rw [h1]
    rfl

/-- Witness for C3 at a concrete input. -/
theorem c3_reset_drains_witness :
    (Reset ⟨2, 2, 2, [7, 8], some 3⟩ (some 4)).1 = construct (some 4) ∧
    (Reset ⟨2, 2, 2, [7, 8], some 3⟩ (some 4)).2 =
      ([7, 8].take 2).map (Event.destroy 3) ∧
    ((Reset ⟨2, 2, 2, [7, 8], some 3⟩ (some 4)).2).count
      (Event.destroy 3 7) = 1 ∧
    Borrow (Reset ⟨2, 2, 2, [7, 8], some 3⟩ (some 4)).1 (some 9) =
      some (some 9, ⟨0, 0, 1, [], some 4⟩, [Event.createOk 4 9]) := by
  have h := c3_reset_drains ⟨2, 2, 2, [7, 8], some 3⟩ (some 4)
  exact ⟨h.1, h.2.1 3 rfl, h.2.2.2.1 3 7 rfl rfl (by decide) (by decide),
    h.2.2.2.2 4 9 rfl⟩

/-- C4: with a non-NULL factory and a well-formed bank, `Borrow` returns
NULL exactly when the bank is empty and the factory's `CreateData` call
returned NULL; when the bank is non-empty it returns the banked handle at
index `size - 1` without calling the factory. -/
theorem c4_borrow_null_iff (s : SimpleDataPool) (fac : FactoryId)
    (c : Option Handle) (hf : s.factory = some fac)
    (hlen : s.pool.length = s.size) :
    ∃ r s' evs, Borrow s c = some (r, s', evs) ∧
      (r = none ↔ (s.size = 0 ∧ c = none)) ∧
      (s.size ≠ 0 → r = s.pool[s.size - 1]? ∧ evs = []) := by
  by_cases hs : s.size = 0
  · rw [Borrow, if_neg (by omega)]
    rw [hf]
    cases c with
    | none =>
      refine ⟨none, s, [Event.createFail fac], rfl, ?_, ?_⟩
      · simp [hs]
      · intro h; exact absurd hs h
    | some data =>
      refine ⟨some data, _, [Event.createOk fac data], rfl, ?_, ?_⟩
      · simp [hs]
      · intro h; exact absurd hs h
  · rw [Borrow, if_pos hs]
    refine ⟨s.pool[s.size - 1]?, _, [], rfl, ?_, fun _ => ⟨rfl, rfl⟩⟩
    have hlt : s.size - 1 < s.pool.length := by omega
    rw [List.getElem?_eq_getElem hlt]
    simp [hs]

/-- Witness for C4 at a concrete input. -/
theorem c4_borrow_null_iff_witness :
    ∃ r s' evs,
      Borrow (⟨5, 2, 5, [1, 2], some 0⟩ : SimpleDataPool) none =
        some (r, s', evs) ∧
      (r = none ↔
        ((⟨5, 2, 5, [1, 2], some 0⟩ : SimpleDataPool).size = 0 ∧
          (none : Option Handle) = none)) ∧
      ((⟨5, 2, 5, [1, 2], some 0⟩ : SimpleDataPool).size ≠ 0 →
        r = ([1, 2] : List Handle)[2 - 1]? ∧ evs = []) :=
  c4_borrow_null_iff ⟨5, 2, 5, [1, 2], some 0⟩ 0 none rfl rfl

/-- C5: returning a valid handle and immediately borrowing (with no
interleaved operation) yields exactly that handle, provided the allocator
does not fail during the Return. -/
theorem c5_return_borrow_roundtrip (s : SimpleDataPool) (h : Handle)
    (c : Option Handle) (hlen : s.pool.length = s.size) :
    ∃ s' evs s'' evs', Return s (some h) true = some (s', evs) ∧
      Borrow s' c = some (some h, s'', evs') := by
  have key : ∀ t : SimpleDataPool, t.pool = s.pool ++ [h] →
      t.size = s.size + 1 →
      Borrow t c = some (some h,
        { t with size := t.size - 1, pool := t.pool.take (t.size - 1) },
        []) := by
    intro t hpool hsize
    rw [Borrow, if_pos (by omega)]
    have : t.pool[t.size - 1]? = some h := by
      rw [hpool, hsize]
      simp only [Nat.add_sub_cancel]
      rw [← hlen]
      exact List.getElem?_concat_length s.pool h
    rw [this]
  rw [Return]
  by_cases hfull : s.capacity = s.size
  · rw [if_pos hfull, if_neg (by simp)]
    exact ⟨_, _, _, _, rfl, key _ rfl rfl⟩
  · rw [if_neg hfull]
    exact ⟨_, _, _, _, rfl, key _ rfl rfl⟩

/-- Witness for C5 at a concrete input. -/
theorem c5_return_borrow_roundtrip_witness :
    ∃ s' evs s'' evs',
      Return (⟨5, 2, 5, [1, 2], some 0⟩ : SimpleDataPool) (some 3) true =
        some (s', evs) ∧
      Borrow s' none = some (some 3, s'', evs') :=
  c5_return_borrow_roundtrip ⟨5, 2, 5, [1, 2], some 0⟩ 3 none rfl

/-- C6: when Return is called on a full bank (`capacity = size`) with a
valid handle and the growth allocation fails, the handle is passed to the
(non-NULL) factory's DestroyData exactly once, it is not banked, and the
whole pool state — capacity, size, buffer, ncreated, factory — is
unchanged. -/
theorem c6_return_allocfail_destroy (s : SimpleDataPool) (h : Handle)
    (fac : FactoryId) (hfull : s.capacity = s.size)
    (hf : s.factory = some fac) (hmem : h ∉ s.pool) :
    Return s (some h) false = some (s, [Event.destroy fac h]) ∧
    ([Event.destroy fac h].count (Event.destroy fac h) = 1) ∧
    h ∉ s.pool := by
  refine ⟨?_, by simp, hmem⟩
  rw [Return, if_pos hfull, if_pos rfl, hf]

/-- Witness for C6 at a concrete input. -/
theorem c6_return_allocfail_destroy_witness :
    Return (⟨2, 2, 2, [1, 2], some 0⟩ : SimpleDataPool) (some 3) false =
      some (⟨2, 2, 2, [1, 2], some 0⟩, [Event.destroy 0 3]) ∧
    ([Event.destroy 0 3].count (Event.destroy 0 3) = 1) ∧
    (3 : Handle) ∉ ([1, 2] : List Handle) :=
  c6_return_allocfail_destroy ⟨2, 2, 2, [1, 2], some 0⟩ 3 0 rfl rfl
    (by decide)

/-- C10: a non-NULL factory is an unstated precondition — with a non-NULL
factory every operation completes (no undefined behaviour on any path,
whatever the oracles do); with a NULL factory, Borrow on an empty bank,
Reserve when growth and the fill loop are reached, and Return's
allocation-failure fallback all dereference the NULL factory. -/
theorem c10_factory_precondition (s : SimpleDataPool) (c d : Option Handle)
    (n : Nat) (h : Handle) (create : Nat → Option Handle) :
    (s.factory ≠ none →
      (Borrow s c).isSome ∧ (Reserve s n true create).isSome ∧
      (Reserve s n false create).isSome ∧ (Return s d true).isSome ∧
      (Return s d false).isSome) ∧
    (s.factory = none →
      (s.size = 0 → Borrow s c = none) ∧
      (s.capacity < n → Reserve s n true create = none) ∧
      (s.capacity = s.size → Return s (some h) false = none)) := by
  constructor
  · intro hne
    obtain ⟨fac, hfac⟩ := Option.ne_none_iff_exists'.mp hne
    refine ⟨?_, ?_, ?_, ?_, ?_⟩
    · rw [Borrow]
      by_cases hs : s.size ≠ 0
      · rw [if_pos hs]; rfl
      · rw [if_neg hs, hfac]
        cases c <;> rfl
    · rw [Reserve]
      by_cases hcap : n ≤ s.capacity
      · rw [if_pos hcap]; rfl
      · rw [if_neg hcap, if_neg (by simp), hfac]; rfl
    · rw [Reserve]
      by_cases hcap : n ≤ s.capacity
      · rw [if_pos hcap]; rfl
      · rw [if_neg hcap, if_pos rfl]; rfl
    · cases d with
      | none => rfl
      | some hd =>
        rw [Return]
        by_cases hfull : s.capacity = s.size
        · rw [if_pos hfull, if_neg (by simp)]; rfl
        · rw [if_neg hfull]; rfl
    · cases d with
      | none => rfl
      | some hd =>
        rw [Return]
        by_cases hfull : s.capacity = s.size
        · rw [if_pos hfull, if_pos rfl, hfac]; rfl
        · rw [if_neg hfull]; rfl
  · intro hnone
    refine ⟨?_, ?_, ?_⟩
    · intro hs
      rw [Borrow, if_neg (by omega), hnone]
    · intro hlt
      rw [Reserve, if_neg (by omega), if_neg (by simp), hnone]
    · intro hfull
      rw [Return, if_pos hfull, if_pos rfl, hnone]

/-- Witness for C10 at concrete inputs on both sides. -/
theorem c10_factory_precondition_witness :
    (Borrow (⟨0, 0, 0, [], some 0⟩ : SimpleDataPool) (some 1)).isSome ∧
    Borrow (⟨0, 0, 0, [], none⟩ : SimpleDataPool) (some 1) = none := by
  constructor
  · exact ((c10_factory_precondition ⟨0, 0, 0, [], some 0⟩ (some 1) none 0 0
      (fun _ => none)).1 (by simp)).1
  · exact ((c10_factory_precondition ⟨0, 0, 0, [], none⟩ (some 1) none 0 0
      (fun _ => none)).2 rfl).1 rfl
